import Mathlib

/-!
Verification of the `memory-arena` crate: a shallow embedding of the
bump allocator in `src/arena.rs`, the backing-store wrapper in
`src/alloc.rs`, and the owning handle in `src/arena_box.rs`.

Machine `usize` arithmetic is modelled over `Nat` with explicit
reduction modulo `2 ^ 64` wherever the Rust code performs wrapping
arithmetic (the release-profile semantics of the crate).
-/

namespace MemoryArena

/-- The modulus of 64-bit `usize` arithmetic. -/
def USIZE : Nat := 2 ^ 64

/-- Bitwise NOT on a 64-bit word, as used by `!(alignment - 1)` in
`Arena::aligned_alloc`. -/
def not64 (x : Nat) : Nat := USIZE - 1 - x % USIZE

/-- Fueled helper for `count_ones`; the fuel bounds the recursion depth so
that the definition is structural and kernel-computable. -/
def count_ones_aux : Nat → Nat → Nat
  | 0, _ => 0
  | _ + 1, 0 => 0
  | f + 1, n + 1 => (n + 1) % 2 + count_ones_aux f ((n + 1) / 2)

/-- `usize::count_ones`: the number of set bits of `n`.  Since the recursion
on `n / 2` terminates within `n` steps, `n` itself is enough fuel. -/
def count_ones (n : Nat) : Nat := count_ones_aux n n

/-- The `Arena` struct of `src/arena.rs`:
`size` (capacity of the backing block), the interior-mutable cursor
`used`, and the base address `mem` of the block. -/
structure Arena where
  size : Nat
  used : Nat
  mem : Nat
deriving DecidableEq

/-- Outcome of running a piece of Rust code that may `assert!`-panic. -/
inductive RResult (α : Type) where
  | panicked : RResult α
  | ok : α → RResult α
deriving DecidableEq

/-- `Arena::aligned_alloc` from `src/arena.rs`:
asserts the alignment is a power of two, rounds `mem + used` up to the
alignment with the mask trick `(p + a - 1) & !(a - 1)`, and either fails
(`None`, state untouched) when the padded request exceeds capacity or
bumps the cursor and returns the aligned pointer. -/
def Arena.aligned_alloc (a : Arena) (size alignment : Nat) :
    RResult (Option (Nat × Arena)) :=
  if count_ones alignment = 1 then
    let unaligned_p : Nat := (a.mem + a.used) % USIZE
    let aligned_p : Nat :=
      ((unaligned_p + (alignment - 1)) % USIZE) &&& not64 (alignment - 1)
    let offset : Nat := (aligned_p + (USIZE - unaligned_p)) % USIZE
    if (a.used + size + offset) % USIZE > a.size then RResult.ok none
    else RResult.ok (some (aligned_p,
      { a with used := (a.used + size + offset) % USIZE }))
  else RResult.panicked

/-- `Arena::alloc::<T>` from `src/arena.rs`, with the type `T` represented
by its `size_of` and `align_of`.  A zero-sized type consumes no memory and
yields the alignment itself as a dangling well-aligned pointer. -/
def Arena.alloc (a : Arena) (sz al : Nat) : RResult (Option (Nat × Arena)) :=
  if sz = 0 then RResult.ok (some (al, a))
  else a.aligned_alloc sz al

/-- A typed view of the arena's memory: the value stored at each address. -/
def Heap (V : Type) := Nat → Option V

/-- The effect of `*p = x`: stores `x` at address `p`. -/
def Heap.write {V : Type} (h : Heap V) (p : Nat) (x : V) : Heap V :=
  fun q => if q = p then some x else h q

/-- The `ArenaBox` handle of `src/arena_box.rs`: a non-null target pointer
(`Unique<T>`); the phantom lifetime has no runtime content. -/
structure ArenaBox (V : Type) where
  value : Nat
deriving DecidableEq

/-- `impl Deref for ArenaBox`: reads the pointee through the wrapped
pointer. -/
def ArenaBox.deref {V : Type} (b : ArenaBox V) (h : Heap V) : Option V :=
  h b.value

/-- `ArenaBox::into_raw`: hands back the wrapped pointer (and
`mem::forget`s the handle, so no destructor will run through it). -/
def ArenaBox.into_raw {V : Type} (b : ArenaBox V) : Nat := b.value

/-- `ArenaBox::from_raw`: rewraps a raw pointer into an owning handle. -/
def ArenaBox.from_raw {V : Type} (p : Nat) : ArenaBox V := ⟨p⟩

/-- How an `ArenaBox` handle's ownership ends: dropped while still owning,
or consumed by `into_raw` and never reconstructed. -/
inductive HandleFate where
  | droppedOwning : HandleFate
  | consumedIntoRaw : HandleFate

/-- How many times the pointee's destructor runs for each fate:
`impl Drop for ArenaBox` calls `ptr::drop_in_place` once on a handle
dropped while owning; `into_raw` calls `mem::forget`, so no drop runs. -/
def pointeeDestructorRuns : HandleFate → Nat
  | HandleFate.droppedOwning => 1
  | HandleFate.consumedIntoRaw => 0

/-- `Arena::new_box` from `src/arena.rs`: allocates, writes the value into
the reserved memory, and wraps the pointer; on exhaustion returns the
original value in `Except.error` with no state mutated. -/
def Arena.new_box {V : Type} (a : Arena) (h : Heap V) (sz al : Nat) (x : V) :
    RResult (Arena × Heap V × Except V (ArenaBox V)) :=
  match a.alloc sz al with
  | RResult.panicked => RResult.panicked
  | RResult.ok none => RResult.ok (a, h, Except.error x)
  | RResult.ok (some (p, a2)) =>
      RResult.ok (a2, h.write p x, Except.ok ⟨p⟩)

/-- The `AllocError` enum of `src/alloc.rs`. -/
inductive AllocError where
  | ZeroSizeAlloc : AllocError
  | Errno : Int → AllocError
deriving DecidableEq

/-- The backing-store provider (`posix_memalign`): given an alignment and a
size, returns either an errno or a pointer to the fresh block. -/
def Provider := Nat → Nat → Except Int Nat

/-- `alloc::aligned_alloc` from `src/alloc.rs` (the non-Windows path):
asserts the alignment is a power of two, rejects zero-size requests with
`ZeroSizeAlloc`, and otherwise forwards to `posix_memalign`, wrapping a
nonzero errno in `AllocError::Errno`. -/
def allocAlignedAlloc (prov : Provider) (size alignment : Nat) :
    RResult (Except AllocError Nat) :=
  if count_ones alignment = 1 then
    if size = 0 then RResult.ok (Except.error AllocError.ZeroSizeAlloc)
    else
      match prov alignment size with
      | Except.error errno =>
          RResult.ok (Except.error (AllocError.Errno errno))
      | Except.ok mem => RResult.ok (Except.ok mem)
  else RResult.panicked

/-- `Arena::new` from `src/arena.rs`: a zero-size request builds an arena
over the non-null placeholder base `1` with no backing allocation;
otherwise the backing block comes from `alloc::aligned_alloc`. -/
def Arena.new (prov : Provider) (size alignment : Nat) :
    RResult (Except AllocError Arena) :=
  if size = 0 then
    RResult.ok (Except.ok { size := size, used := 0, mem := 1 })
  else
    match allocAlignedAlloc prov size alignment with
    | RResult.panicked => RResult.panicked
    | RResult.ok (Except.error e) => RResult.ok (Except.error e)
    | RResult.ok (Except.ok mem) =>
        RResult.ok (Except.ok { size := size, used := 0, mem := mem })

/-- `impl Drop for Arena`: the list of pointers handed to `alloc::free`
during teardown.  The source frees `self.mem` unconditionally. -/
def Arena.dropFrees (a : Arena) : List Nat := [a.mem]

/-- `round_up(u, al)` of the specification: the least multiple of `al`
that is at least `u`, computed as `(u + al - 1) / al * al`. -/
def alignUp (u al : Nat) : Nat := (u + al - 1) / al * al

/-- Two occupied byte ranges, each given as (pointer, length, alignment),
do not overlap. -/
def rangesDisjoint (r s : Nat × Nat × Nat) : Prop :=
  r.1 + r.2.1 ≤ s.1 ∨ s.1 + s.2.1 ≤ r.1

/-- Runs a sequence of `aligned_alloc` requests (size, alignment) against
an arena, recording each successful placement as
(pointer, size, alignment); a failed request leaves the arena untouched
and records nothing, exactly as in the source. -/
def Arena.runAllocs :
    Arena → List (Nat × Nat × Nat) → List (Nat × Nat) →
      RResult (Arena × List (Nat × Nat × Nat))
  | a, acc, [] => RResult.ok (a, acc)
  | a, acc, (sz, al) :: rest =>
    match a.aligned_alloc sz al with
    | RResult.panicked => RResult.panicked
    | RResult.ok none => Arena.runAllocs a acc rest
    | RResult.ok (some (p, a2)) => Arena.runAllocs a2 (acc ++ [(p, sz, al)]) rest

/-- One operation of the arena's public allocation interface. -/
inductive Op (V : Type) where
  | rawAlloc : Nat → Nat → Op V
  | box : Nat → Nat → V → Op V

/-- Runs a sequence of `aligned_alloc` / `new_box` operations against an
arena, threading the arena state and the heap. -/
def Arena.runOps {V : Type} :
    Arena → Heap V → List (Op V) → RResult (Arena × Heap V)
  | a, h, [] => RResult.ok (a, h)
  | a, h, Op.rawAlloc sz al :: rest =>
    match a.aligned_alloc sz al with
    | RResult.panicked => RResult.panicked
    | RResult.ok none => Arena.runOps a h rest
    | RResult.ok (some (_, a2)) => Arena.runOps a2 h rest
  | a, h, Op.box sz al x :: rest =>
    match a.new_box h sz al x with
    | RResult.panicked => RResult.panicked
    | RResult.ok (a2, h2, _) => Arena.runOps a2 h2 rest

/-- A backing-store provider that always fails with `ENOMEM` (12). -/
def provFail : Provider := fun _ _ => Except.error 12

/-- A backing-store provider that returns the fixed address `p`. -/
def provAt (p : Nat) : Provider := fun _ _ => Except.ok p

/-- A backing-store provider that returns twice the requested alignment:
an address satisfying the provider's alignment contract. -/
def provAligned : Provider := fun alignment _ => Except.ok (alignment * 2)

/-- The everywhere-uninitialized heap. -/
def hEmpty : Heap Nat := fun _ => none

/-! ### Arithmetic helper lemmas -/

theorem count_ones_aux_congr :
    ∀ f1 n f2, n ≤ f1 → n ≤ f2 → count_ones_aux f1 n = count_ones_aux f2 n := by
  intro f1
  induction f1 with
  | zero =>
    intro n f2 h1 _
    interval_cases n
    cases f2 <;> rfl
  | succ f ih =>
    intro n f2 h1 h2
    match n, f2 with
    | 0, 0 => rfl
    | 0, g + 1 => rfl
    | m + 1, g + 1 =>
      show (m + 1) % 2 + count_ones_aux f ((m + 1) / 2) =
           (m + 1) % 2 + count_ones_aux g ((m + 1) / 2)
      have hm : (m + 1) / 2 ≤ m := Nat.lt_succ_iff.mp (Nat.div_lt_self (Nat.succ_pos m) one_lt_two)
      rw [ih ((m + 1) / 2) g (by omega) (by omega)]

theorem count_ones_two_pow (k : Nat) : count_ones (2 ^ k) = 1 := by
  induction k with
  | zero => rfl
  | succ k ih =>
    have hpos : 0 < 2 ^ (k + 1) := Nat.pos_pow_of_pos _ (by norm_num)
    have hsplit : 2 ^ (k + 1) = (2 ^ (k + 1) - 1 - 1) + 1 + 1 := by
      have : 2 ≤ 2 ^ (k + 1) := by
        calc 2 = 2 ^ 1 := rfl
        _ ≤ 2 ^ (k + 1) := Nat.pow_le_pow_right (by norm_num) (by omega)
      omega
    rw [count_ones, hsplit]
    show ((2 ^ (k + 1) - 1 - 1) + 1 + 1) % 2 +
        count_ones_aux ((2 ^ (k + 1) - 1 - 1) + 1) (((2 ^ (k + 1) - 1 - 1) + 1 + 1) / 2) = 1
    rw [← hsplit]
    have hmod : 2 ^ (k + 1) % 2 = 0 := by
      rw [pow_succ, Nat.mul_mod_left]
    have hdiv : 2 ^ (k + 1) / 2 = 2 ^ k := by
      rw [pow_succ, Nat.mul_div_cancel _ (by norm_num)]
    rw [hmod, hdiv, Nat.zero_add]
    have hle1 : 2 ^ k ≤ 2 ^ (k + 1) - 1 := by
      have : 2 ^ k < 2 ^ (k + 1) := Nat.pow_lt_pow_right (by norm_num) (by omega)
      omega
    have heq : (2 ^ (k + 1) - 1 - 1) + 1 = 2 ^ (k + 1) - 1 := by omega
    rw [heq, count_ones_aux_congr (2 ^ (k + 1) - 1) (2 ^ k) (2 ^ k) hle1 le_rfl]
    exact ih

/-- Masking with the 64-bit complement of `2 ^ k - 1` clears the low `k`
bits: for words below `2 ^ 64` it is truncation to a multiple of `2 ^ k`. -/
theorem land_highmask (k x : Nat) (hk : k ≤ 64) (hx : x < 2 ^ 64) :
    x &&& (2 ^ 64 - 2 ^ k) = x / 2 ^ k * 2 ^ k := by
  have hmask : 2 ^ 64 - 2 ^ k = (2 ^ (64 - k) - 1) <<< k := by
    rw [Nat.shiftLeft_eq, Nat.sub_mul, one_mul, ← pow_add]
    congr 2
    omega
  have hrhs : x / 2 ^ k * 2 ^ k = (x >>> k) <<< k := by
    rw [Nat.shiftLeft_eq, Nat.shiftRight_eq_div_pow]
  rw [hmask, hrhs]
  apply Nat.eq_of_testBit_eq
  intro i
  rw [Nat.testBit_land, Nat.testBit_shiftLeft, Nat.testBit_shiftLeft,
      Nat.testBit_shiftRight, Nat.testBit_two_pow_sub_one]
  by_cases hik : k ≤ i
  · have hki : k + (i - k) = i := by omega
    by_cases hi64 : i < 64
    · simp [ge_iff_le, hik, hki, show i - k < 64 - k by omega]
    · have hxi : x.testBit i = false :=
        Nat.testBit_lt_two_pow
          (lt_of_lt_of_le hx (Nat.pow_le_pow_right (by norm_num) (by omega)))
      simp [ge_iff_le, hik, hki, hxi, show ¬(i - k < 64 - k) by omega]
  · simp [ge_iff_le, hik]

theorem alignUp_ge (u al : Nat) (h : 0 < al) : u ≤ alignUp u al := by
  have hd := Nat.div_add_mod (u + al - 1) al
  have hm : (u + al - 1) % al < al := Nat.mod_lt _ h
  rw [alignUp, Nat.mul_comm]
  omega

theorem alignUp_le (u al : Nat) (_h : 0 < al) : alignUp u al ≤ u + al - 1 := by
  have hd := Nat.div_add_mod (u + al - 1) al
  rw [alignUp, Nat.mul_comm]
  omega

theorem alignUp_mod (u al : Nat) : alignUp u al % al = 0 :=
  Nat.mul_mod_left _ _

/-- The bump-allocation step characterized over plain `Nat` arithmetic:
under a power-of-two alignment and the no-overflow side conditions that
hold for every real arena, `Arena::aligned_alloc` either rejects the
request that would overrun the capacity, leaving the state untouched, or
returns the cursor rounded up to the alignment and advances `used` past
the padding and the payload. -/
theorem aligned_alloc_eq (a : Arena) (sz al k : Nat) (hk : k < 64)
    (hal : al = 2 ^ k)
    (h1 : a.mem + a.used + al ≤ USIZE) (h2 : a.used + sz + al ≤ USIZE) :
    a.aligned_alloc sz al =
      (if a.size < a.used + sz + (alignUp (a.mem + a.used) al - (a.mem + a.used))
       then RResult.ok none
       else RResult.ok (some (alignUp (a.mem + a.used) al,
         { a with used :=
             a.used + sz + (alignUp (a.mem + a.used) al - (a.mem + a.used)) }))) := by
  have hU : USIZE = 2 ^ 64 := rfl
  have halpos : 0 < al := by rw [hal]; exact Nat.pos_pow_of_pos _ (by norm_num)
  have hal63 : al ≤ 2 ^ 63 := by
    rw [hal]; exact Nat.pow_le_pow_right (by norm_num) (by omega)
  have hu : a.mem + a.used < USIZE := by omega
  have huw : (a.mem + a.used) % USIZE = a.mem + a.used := Nat.mod_eq_of_lt hu
  have hx : a.mem + a.used + (al - 1) < USIZE := by omega
  have hxw : (a.mem + a.used + (al - 1)) % USIZE = a.mem + a.used + (al - 1) :=
    Nat.mod_eq_of_lt hx
  have hnot : not64 (al - 1) = 2 ^ 64 - 2 ^ k := by
    rw [not64, Nat.mod_eq_of_lt (show al - 1 < USIZE by
      unfold USIZE; omega)]
    unfold USIZE
    omega
  have harg : a.mem + a.used + (al - 1) = a.mem + a.used + al - 1 := by omega
  have hland : (a.mem + a.used + (al - 1)) &&& not64 (al - 1) =
      alignUp (a.mem + a.used) al := by
    rw [hnot, harg,
        land_highmask k _ (by omega) (show a.mem + a.used + al - 1 < 2 ^ 64 by
          have := hx; omega),
        alignUp, hal]
  have hup_ge := alignUp_ge (a.mem + a.used) al halpos
  have hup_le := alignUp_le (a.mem + a.used) al halpos
  have hoffw : (alignUp (a.mem + a.used) al + (USIZE - (a.mem + a.used))) % USIZE
      = alignUp (a.mem + a.used) al - (a.mem + a.used) := by
    have hrw : alignUp (a.mem + a.used) al + (USIZE - (a.mem + a.used))
        = (alignUp (a.mem + a.used) al - (a.mem + a.used)) + USIZE := by omega
    rw [hrw, Nat.add_mod_right, Nat.mod_eq_of_lt (by omega)]
  have htotw : (a.used + sz + (alignUp (a.mem + a.used) al - (a.mem + a.used))) % USIZE
      = a.used + sz + (alignUp (a.mem + a.used) al - (a.mem + a.used)) := by
    apply Nat.mod_eq_of_lt
    omega
  have hco : count_ones al = 1 := by rw [hal]; exact count_ones_two_pow k
  show (if count_ones al = 1 then _ else _) = _
  rw [if_pos hco]
  simp only [huw, hxw, hland, hoffw, htotw]

/-! ### Structural lemmas about the operations -/

/-- A successful `aligned_alloc` keeps the cursor within capacity (the
guard rejects anything larger) and never changes `size` or `mem`. -/
theorem aligned_alloc_ok_bounds (a : Arena) (sz al p : Nat) (a2 : Arena)
    (h : a.aligned_alloc sz al = RResult.ok (some (p, a2))) :
    a2.used ≤ a2.size ∧ a2.size = a.size ∧ a2.mem = a.mem := by
  unfold Arena.aligned_alloc at h
  by_cases hco : count_ones al = 1
  · rw [if_pos hco] at h
    dsimp only at h
    split at h
    · simp at h
    · rename_i hgt
      injection h with h1
      injection h1 with h2
      injection h2 with h3 h4
      rw [← h4]
      refine ⟨?_, rfl, rfl⟩
      simp only
      omega
  · rw [if_neg hco] at h
    cases h

/-- A successful `Arena::new` yields a fresh cursor `used = 0` (and hence
`used ≤ size`). -/
theorem new_ok_used_zero (prov : Provider) (size al : Nat) (a : Arena)
    (h : Arena.new prov size al = RResult.ok (Except.ok a)) :
    a.used = 0 ∧ a.used ≤ a.size := by
  unfold Arena.new at h
  by_cases hsz : size = 0
  · rw [if_pos hsz] at h
    injection h with h1
    injection h1 with h2
    rw [← h2]
    exact ⟨rfl, Nat.zero_le _⟩
  · rw [if_neg hsz] at h
    unfold allocAlignedAlloc at h
    by_cases hco : count_ones al = 1
    · rw [if_pos hco, if_neg hsz] at h
      cases hp : prov al size with
      | error e => rw [hp] at h; cases h
      | ok mem =>
        rw [hp] at h
        injection h with h1
        injection h1 with h2
        rw [← h2]
        exact ⟨rfl, Nat.zero_le _⟩
    · rw [if_neg hco] at h
      cases h

/-- `new_box` preserves `used ≤ size`: a zero-sized placement leaves the
arena untouched, exhaustion leaves it untouched, and a successful
placement goes through `aligned_alloc`. -/
theorem new_box_ok_bounds {V : Type} (a : Arena) (h : Heap V) (sz al : Nat)
    (x : V) (a2 : Arena) (h2 : Heap V) (r : Except V (ArenaBox V))
    (hle : a.used ≤ a.size)
    (hrun : a.new_box h sz al x = RResult.ok (a2, h2, r)) :
    a2.used ≤ a2.size := by
  unfold Arena.new_box Arena.alloc at hrun
  by_cases hsz : sz = 0
  · rw [if_pos hsz] at hrun
    injection hrun with h1
    injection h1 with h2
    rw [← h2]
    exact hle
  · rw [if_neg hsz] at hrun
    cases halloc : a.aligned_alloc sz al with
    | panicked => rw [halloc] at hrun; cases hrun
    | ok o =>
      cases o with
      | none =>
        rw [halloc] at hrun
        injection hrun with h1
        injection h1 with h2
        rw [← h2]
        exact hle
      | some pa =>
        obtain ⟨p, a3⟩ := pa
        rw [halloc] at hrun
        injection hrun with h1
        injection h1 with h2
        rw [← h2]
        exact (aligned_alloc_ok_bounds a sz al p a3 halloc).1

/-- `runOps` preserves `used ≤ size` across any sequence of
`aligned_alloc` / `new_box` operations. -/
theorem runOps_preserves {V : Type} (ops : List (Op V)) :
    ∀ (a : Arena) (h : Heap V) (a2 : Arena) (h2 : Heap V),
      a.used ≤ a.size → Arena.runOps a h ops = RResult.ok (a2, h2) →
      a2.used ≤ a2.size := by
  induction ops with
  | nil =>
    intro a h a2 h2 hle hrun
    injection hrun with h1
    injection h1 with h2
    rw [← h2]
    exact hle
  | cons op rest ih =>
    intro a h a2 h2 hle hrun
    cases op with
    | rawAlloc sz al =>
      cases hst : a.aligned_alloc sz al with
      | panicked =>
        rw [show Arena.runOps a h (Op.rawAlloc sz al :: rest) =
              (match a.aligned_alloc sz al with
               | RResult.panicked => RResult.panicked
               | RResult.ok none => Arena.runOps a h rest
               | RResult.ok (some (_, a3)) => Arena.runOps a3 h rest) from rfl,
            hst] at hrun
        cases hrun
      | ok o =>
        rw [show Arena.runOps a h (Op.rawAlloc sz al :: rest) =
              (match a.aligned_alloc sz al with
               | RResult.panicked => RResult.panicked
               | RResult.ok none => Arena.runOps a h rest
               | RResult.ok (some (_, a3)) => Arena.runOps a3 h rest) from rfl,
            hst] at hrun
        cases o with
        | none => exact ih a h a2 h2 hle hrun
        | some pa =>
          obtain ⟨p, a3⟩ := pa
          exact ih a3 h a2 h2 (aligned_alloc_ok_bounds a sz al p a3 hst).1 hrun
    | box sz al x =>
      cases hst : a.new_box h sz al x with
      | panicked =>
        rw [show Arena.runOps a h (Op.box sz al x :: rest) =
              (match a.new_box h sz al x with
               | RResult.panicked => RResult.panicked
               | RResult.ok (a3, h3, _) => Arena.runOps a3 h3 rest) from rfl,
            hst] at hrun
        cases hrun
      | ok t =>
        obtain ⟨a3, h3, r⟩ := t
        rw [show Arena.runOps a h (Op.box sz al x :: rest) =
              (match a.new_box h sz al x with
               | RResult.panicked => RResult.panicked
               | RResult.ok (a4, h4, _) => Arena.runOps a4 h4 rest) from rfl,
            hst] at hrun
        exact ih a3 h3 a2 h2 (new_box_ok_bounds a h sz al x a3 h3 r hle hst) hrun

/-- Well-formedness of a request list: positive size, power-of-two
alignment below the word size, and a bound keeping the padded request
within `usize` arithmetic. -/
def reqsWF (reqs : List (Nat × Nat)) : Prop :=
  ∀ r ∈ reqs, 0 < r.1 ∧ (∃ k, k < 64 ∧ r.2 = 2 ^ k) ∧ r.1 + r.2 ≤ 2 ^ 63

/-- The bump-allocation invariant over a whole run: every recorded range
is aligned to its request and lies below the cursor, the recorded ranges
are pairwise disjoint, and the cursor only grows while staying within
capacity. -/
theorem runAllocs_invariant (reqs : List (Nat × Nat)) :
    ∀ (a : Arena) (acc : List (Nat × Nat × Nat)) (a2 : Arena)
      (rs : List (Nat × Nat × Nat)),
      a.mem + a.size ≤ 2 ^ 63 → a.used ≤ a.size → reqsWF reqs →
      (∀ r ∈ acc, r.1 % r.2.2 = 0 ∧ r.1 + r.2.1 ≤ a.mem + a.used) →
      List.Pairwise rangesDisjoint acc →
      Arena.runAllocs a acc reqs = RResult.ok (a2, rs) →
      a2.mem = a.mem ∧ a2.size = a.size ∧ a.used ≤ a2.used ∧
        a2.used ≤ a2.size ∧
        (∀ r ∈ rs, r.1 % r.2.2 = 0 ∧ r.1 + r.2.1 ≤ a2.mem + a2.used) ∧
        List.Pairwise rangesDisjoint rs := by
  induction reqs with
  | nil =>
    intro a acc a2 rs _ hused _ hacc hpw hrun
    injection hrun with h1
    injection h1 with h2 h3
    rw [← h2, ← h3]
    exact ⟨rfl, rfl, Nat.le_refl _, hused, hacc, hpw⟩
  | cons req rest ih =>
    intro a acc a2 rs hmem hused hreqs hacc hpw hrun
    obtain ⟨sz, al⟩ := req
    obtain ⟨hsz, ⟨k, hk, hal⟩, hszal⟩ := hreqs (sz, al) (by simp)
    dsimp only at hsz hal hszal
    have hU : USIZE = 2 ^ 64 := rfl
    have hal63 : al ≤ 2 ^ 63 := by
      rw [hal]; exact Nat.pow_le_pow_right (by norm_num) (by omega)
    have hstep := aligned_alloc_eq a sz al k hk hal (by omega) (by omega)
    have hrest : reqsWF rest := fun r hr => hreqs r (List.mem_cons_of_mem _ hr)
    rw [show Arena.runAllocs a acc ((sz, al) :: rest) =
          (match a.aligned_alloc sz al with
           | RResult.panicked => RResult.panicked
           | RResult.ok none => Arena.runAllocs a acc rest
           | RResult.ok (some (p, a3)) =>
               Arena.runAllocs a3 (acc ++ [(p, sz, al)]) rest) from rfl,
        hstep] at hrun
    have halpos : 0 < al := by
      rw [hal]; exact Nat.pos_pow_of_pos _ (by norm_num)
    have hup_ge := alignUp_ge (a.mem + a.used) al halpos
    have hup_le := alignUp_le (a.mem + a.used) al halpos
    by_cases hfit :
        a.size < a.used + sz + (alignUp (a.mem + a.used) al - (a.mem + a.used))
    · rw [if_pos hfit] at hrun
      exact ih a acc a2 rs hmem hused hrest hacc hpw hrun
    · rw [if_neg hfit] at hrun
      set p := alignUp (a.mem + a.used) al with hp
      set u2 := a.used + sz + (p - (a.mem + a.used)) with hu2
      have hbounds :=
        ih { a with used := u2 } (acc ++ [(p, sz, al)]) a2 rs
          (by simpa using hmem) (by simp only; omega) hrest
          (by
            intro r hr
            rcases List.mem_append.mp hr with hr1 | hr2
            · obtain ⟨h1, h2⟩ := hacc r hr1
              exact ⟨h1, by simp only; omega⟩
            · rcases List.mem_singleton.mp hr2 with rfl
              refine ⟨alignUp_mod _ _, ?_⟩
              simp only
              omega)
          (by
            rw [List.pairwise_append]
            refine ⟨hpw, List.pairwise_singleton _ _, ?_⟩
            intro r hr s hs
            rcases List.mem_singleton.mp hs with rfl
            exact Or.inl (le_trans (hacc r hr).2 hup_ge))
          hrun
      obtain ⟨hb1, hb2, hb3, hb4, hb5, hb6⟩ := hbounds
      refine ⟨hb1, hb2, ?_, hb4, hb5, hb6⟩
      calc a.used ≤ u2 := by omega
      _ ≤ a2.used := hb3

/-- Running a concatenated request list is running the first part and
continuing with the second from the resulting state. -/
theorem runAllocs_append (l1 l2 : List (Nat × Nat)) :
    ∀ (a : Arena) (acc : List (Nat × Nat × Nat)),
      Arena.runAllocs a acc (l1 ++ l2) =
        (match Arena.runAllocs a acc l1 with
         | RResult.panicked => RResult.panicked
         | RResult.ok (b, acc2) => Arena.runAllocs b acc2 l2) := by
  induction l1 with
  | nil => intro a acc; rfl
  | cons req rest ih =>
    intro a acc
    obtain ⟨sz, al⟩ := req
    rw [show ((sz, al) :: rest) ++ l2 = (sz, al) :: (rest ++ l2) from rfl,
        show Arena.runAllocs a acc ((sz, al) :: (rest ++ l2)) =
          (match a.aligned_alloc sz al with
           | RResult.panicked => RResult.panicked
           | RResult.ok none => Arena.runAllocs a acc (rest ++ l2)
           | RResult.ok (some (p, a3)) =>
               Arena.runAllocs a3 (acc ++ [(p, sz, al)]) (rest ++ l2)) from rfl,
        show Arena.runAllocs a acc ((sz, al) :: rest) =
          (match a.aligned_alloc sz al with
           | RResult.panicked => RResult.panicked
           | RResult.ok none => Arena.runAllocs a acc rest
           | RResult.ok (some (p, a3)) =>
               Arena.runAllocs a3 (acc ++ [(p, sz, al)]) rest) from rfl]
    cases a.aligned_alloc sz al with
    | panicked => rfl
    | ok o =>
      cases o with
      | none => exact ih a acc
      | some pa =>
        obtain ⟨p, a3⟩ := pa
        exact ih a3 (acc ++ [(p, sz, al)])

/-! ### Claim theorems -/

/-- C1: for every value `v` of a sized, non-zero-sized type and every
arena, if `new_box(v)` succeeds then dereferencing the returned
`ArenaBox` immediately after placement yields exactly `v`. -/
theorem C1_deref_after_placement {V : Type} (a a2 : Arena) (h h2 : Heap V)
    (sz al : Nat) (x : V) (b : ArenaBox V) (_hsz : sz ≠ 0)
    (hrun : a.new_box h sz al x = RResult.ok (a2, h2, Except.ok b)) :
    b.deref h2 = some x := by
  unfold Arena.new_box at hrun
  cases halloc : a.alloc sz al with
  | panicked => rw [halloc] at hrun; cases hrun
  | ok o =>
    cases o with
    | none =>
      rw [halloc] at hrun
      injection hrun with h1
      injection h1 with h2 h3
      cases h3
    | some pa =>
      obtain ⟨p, a3⟩ := pa
      rw [halloc] at hrun
      injection hrun with h1
      injection h1 with h2 h3
      injection h3 with h4 h5
      injection h5 with h6
      rw [← h4, ← h6]
      show (Heap.write h p x) p = some x
      unfold Heap.write
      rw [if_pos rfl]

/-- C1 witness: placing `42` in a fresh 1024-byte arena at base 1024
yields a handle at 1024 that dereferences to `42`. -/
theorem C1_witness :
    ArenaBox.deref ⟨1024⟩ (Heap.write hEmpty 1024 42) = some 42 :=
  C1_deref_after_placement ⟨1024, 0, 1024⟩ ⟨1024, 8, 1024⟩ hEmpty
    (Heap.write hEmpty 1024 42) 8 8 42 ⟨1024⟩ (by decide) rfl

/-- C2: if the remaining capacity is insufficient for a non-zero-sized
value (`used + padding + sizeof > capacity`), `new_box` returns `Err`
carrying the original value and the arena state is unmodified. -/
theorem C2_exhaustion_is_noop {V : Type} (a : Arena) (h : Heap V)
    (sz al k : Nat) (x : V) (hk : k < 64) (hal : al = 2 ^ k) (hsz : 0 < sz)
    (hov1 : a.mem + a.used + al ≤ USIZE) (hov2 : a.used + sz + al ≤ USIZE)
    (hfull : a.size <
      a.used + (alignUp (a.mem + a.used) al - (a.mem + a.used)) + sz) :
    a.new_box h sz al x = RResult.ok (a, h, Except.error x) := by
  unfold Arena.new_box Arena.alloc
  rw [if_neg (by omega), aligned_alloc_eq a sz al k hk hal hov1 hov2,
      if_pos (by omega)]

/-- C2 witness: a 1-byte arena cannot hold an 8-byte `42`; the call hands
`42` back and changes nothing (the out-of-memory doctest of `new_box`). -/
theorem C2_witness :
    Arena.new_box ⟨1, 0, 512⟩ hEmpty 8 8 (42 : Nat) =
      RResult.ok (⟨1, 0, 512⟩, hEmpty, Except.error 42) :=
  C2_exhaustion_is_noop ⟨1, 0, 512⟩ hEmpty 8 8 3 42 (by decide) (by decide)
    (by decide) (by decide) (by decide) (by decide)

/-- C4: placing a value of a zero-sized type always succeeds, never
touches `used` (the arena is returned unchanged), and yields a handle
whose pointer is the type's alignment: non-null and correctly aligned. -/
theorem C4_zero_sized_placement {V : Type} (a : Arena) (h : Heap V)
    (al : Nat) (x : V) (hal : 0 < al) :
    a.new_box h 0 al x = RResult.ok (a, h.write al x, Except.ok ⟨al⟩) ∧
      (ArenaBox.mk al : ArenaBox V).value ≠ 0 ∧
      (ArenaBox.mk al : ArenaBox V).value % al = 0 :=
  ⟨rfl, by simp only [ArenaBox.mk.injEq]; omega, Nat.mod_self al⟩

/-- C4 witness: a zero-sized placement into the capacity-zero arena
(base 1) succeeds with the aligned sentinel pointer 4. -/
theorem C4_witness :
    Arena.new_box ⟨0, 0, 1⟩ hEmpty 0 4 (7 : Nat) =
      RResult.ok (⟨0, 0, 1⟩, hEmpty.write 4 7, Except.ok ⟨4⟩) ∧
      (ArenaBox.mk 4 : ArenaBox Nat).value ≠ 0 ∧
      (ArenaBox.mk 4 : ArenaBox Nat).value % 4 = 0 :=
  C4_zero_sized_placement ⟨0, 0, 1⟩ hEmpty 4 7 (by decide)

/-- C9 counterexample: `Arena::new(0, 3)` succeeds even though 3 is not a
power of two — the `size == 0` branch never validates the alignment, so
the claimed fail-fast does not cover every size. -/
theorem C9_counterexample :
    Arena.new provFail 0 3 = RResult.ok (Except.ok ⟨0, 0, 1⟩) ∧
      count_ones 3 ≠ 1 :=
  ⟨rfl, by decide⟩

/-- C9 (amended): for every nonzero size, `Arena::new` with a
non-power-of-two alignment panics via the assert in
`alloc::aligned_alloc`; the success branch is unreachable there. -/
theorem C9_nonpow2_panics (prov : Provider) (size al : Nat)
    (hsz : size ≠ 0) (hal : count_ones al ≠ 1) :
    Arena.new prov size al = RResult.panicked := by
  unfold Arena.new allocAlignedAlloc
  rw [if_neg hsz, if_neg hal]

/-- C9 witness: `Arena::new(1024, 1025)` panics (the `should_panic` test
`arena_invalid_alignment`). -/
theorem C9_witness : Arena.new provFail 1024 1025 = RResult.panicked :=
  C9_nonpow2_panics provFail 1024 1025 (by decide) (by decide)

/-- C3: over any run of successful placements, the recorded byte ranges
are pairwise disjoint, every returned pointer is aligned to its request's
alignment, and the `used` cursor never decreases (both end-to-end and
after every prefix of the request sequence). -/
theorem C3_disjoint_aligned_monotone (a a2 : Arena) (reqs : List (Nat × Nat))
    (rs : List (Nat × Nat × Nat))
    (hmem : a.mem + a.size ≤ 2 ^ 63) (hused : a.used ≤ a.size)
    (hreqs : reqsWF reqs)
    (hrun : Arena.runAllocs a [] reqs = RResult.ok (a2, rs)) :
    List.Pairwise rangesDisjoint rs ∧ (∀ r ∈ rs, r.1 % r.2.2 = 0) ∧
      a.used ≤ a2.used ∧
      (∀ l1 l2 b rs1, reqs = l1 ++ l2 →
        Arena.runAllocs a [] l1 = RResult.ok (b, rs1) → b.used ≤ a2.used) := by
  obtain ⟨h1, h2, h3, h4, h5, h6⟩ :=
    runAllocs_invariant reqs a [] a2 rs hmem hused hreqs
      (by intro r hr; cases hr) List.Pairwise.nil hrun
  refine ⟨h6, fun r hr => (h5 r hr).1, h3, ?_⟩
  intro l1 l2 b rs1 hsplit hrun1
  have hl1 : reqsWF l1 := fun r hr =>
    hreqs r (hsplit ▸ List.mem_append_left _ hr)
  have hl2 : reqsWF l2 := fun r hr =>
    hreqs r (hsplit ▸ List.mem_append_right _ hr)
  obtain ⟨g1, g2, g3, g4, g5, g6⟩ :=
    runAllocs_invariant l1 a [] b rs1 hmem hused hl1
      (by intro r hr; cases hr) List.Pairwise.nil hrun1
  rw [hsplit, runAllocs_append l1 l2 a [], hrun1] at hrun
  obtain ⟨_, _, hmono, _, _, _⟩ :=
    runAllocs_invariant l2 b rs1 a2 rs (by rw [g1, g2]; exact hmem) g4 hl2
      g5 g6 hrun
  exact hmono

/-- C3 witness: the four aligned allocations of the `arena_aligned_alloc`
test give the ranges at 1024, 1028, 1032, 1536 — pairwise disjoint, each
pointer aligned, cursor 0 to 513. -/
theorem C3_witness :
    List.Pairwise rangesDisjoint
        [(1024, 1, 1), (1028, 1, 4), (1032, 1, 8), (1536, 1, 512)] ∧
      1024 % 1 = 0 ∧ 1028 % 4 = 0 ∧ 1032 % 8 = 0 ∧ 1536 % 512 = 0 ∧
      (0 : Nat) ≤ 513 := by
  obtain ⟨h1, h2, h3, _⟩ :=
    C3_disjoint_aligned_monotone ⟨1024, 0, 1024⟩ ⟨1024, 513, 1024⟩
      [(1, 1), (1, 4), (1, 8), (1, 512)]
      [(1024, 1, 1), (1028, 1, 4), (1032, 1, 8), (1536, 1, 512)]
      (by decide) (by decide)
      (by
        intro r hr
        simp only [List.mem_cons, List.not_mem_nil, or_false] at hr
        rcases hr with rfl | rfl | rfl | rfl
        · exact ⟨by decide, ⟨0, by decide, by decide⟩, by decide⟩
        · exact ⟨by decide, ⟨2, by decide, by decide⟩, by decide⟩
        · exact ⟨by decide, ⟨3, by decide, by decide⟩, by decide⟩
        · exact ⟨by decide, ⟨9, by decide, by decide⟩, by decide⟩)
      rfl
  exact ⟨h1, h2 (1024, 1, 1) (by simp), h2 (1028, 1, 4) (by simp),
    h2 (1032, 1, 8) (by simp), h2 (1536, 1, 512) (by simp), h3⟩

/-- C5: every arena produced by `Arena::new` starts with `used = 0`, and
every sequence of `aligned_alloc` / `new_box` operations preserves
`used ≤ capacity`. -/
theorem C5_cursor_invariant {V : Type} (prov : Provider) (size al : Nat)
    (a0 : Arena) (h0 : Heap V) (ops : List (Op V)) (a2 : Arena)
    (h2 : Heap V)
    (hnew : Arena.new prov size al = RResult.ok (Except.ok a0))
    (hrun : Arena.runOps a0 h0 ops = RResult.ok (a2, h2)) :
    a0.used = 0 ∧ a0.used ≤ a0.size ∧ a2.used ≤ a2.size := by
  obtain ⟨hz, hle⟩ := new_ok_used_zero prov size al a0 hnew
  exact ⟨hz, hle, runOps_preserves ops a0 h0 a2 h2 hle hrun⟩

/-- C5 witness: a fresh 1024-byte arena starts at `used = 0` and after a
raw allocation and a boxed placement sits at `used = 12 ≤ 1024`. -/
theorem C5_witness :
    (⟨1024, 0, 1024⟩ : Arena).used = 0 ∧
      (⟨1024, 0, 1024⟩ : Arena).used ≤ (⟨1024, 0, 1024⟩ : Arena).size ∧
      (⟨1024, 12, 1024⟩ : Arena).used ≤ (⟨1024, 12, 1024⟩ : Arena).size :=
  C5_cursor_invariant (provAt 1024) 1024 16 ⟨1024, 0, 1024⟩ hEmpty
    [Op.rawAlloc 8 8, Op.box 4 4 42] ⟨1024, 12, 1024⟩
    (hEmpty.write 1032 42) rfl rfl

/-- C6: `Arena::new` with size 0 succeeds for every alignment without
consulting the backing-store provider, with the non-null placeholder
base 1; on that arena every non-zero-sized placement immediately hands
the value back; and `Arena::new` never returns `ZeroSizeAlloc`. -/
theorem C6_zero_size_arena {V : Type} (prov prov2 : Provider) (al : Nat)
    (h : Heap V) (x : V) (sz al2 k : Nat)
    (hsz : 0 < sz) (hk : k < 64) (hal2 : al2 = 2 ^ k)
    (hszal : sz + al2 ≤ USIZE) :
    Arena.new prov 0 al = RResult.ok (Except.ok ⟨0, 0, 1⟩) ∧
      Arena.new prov 0 al = Arena.new prov2 0 al ∧
      Arena.new_box ⟨0, 0, 1⟩ h sz al2 x =
        RResult.ok (⟨0, 0, 1⟩, h, Except.error x) ∧
      (∀ size alignment e,
        Arena.new prov size alignment = RResult.ok (Except.error e) →
        e ≠ AllocError.ZeroSizeAlloc) ∧
      (1 : Nat) ≠ 0 := by
  refine ⟨rfl, rfl, ?_, ?_, by decide⟩
  · have hchar := aligned_alloc_eq ⟨0, 0, 1⟩ sz al2 k hk hal2
      (show 1 + 0 + al2 ≤ USIZE by omega)
      (show 0 + sz + al2 ≤ USIZE by omega)
    have hcond : (⟨0, 0, 1⟩ : Arena).size <
        (⟨0, 0, 1⟩ : Arena).used + sz +
          (alignUp ((⟨0, 0, 1⟩ : Arena).mem + (⟨0, 0, 1⟩ : Arena).used) al2 -
            ((⟨0, 0, 1⟩ : Arena).mem + (⟨0, 0, 1⟩ : Arena).used)) := by
      show (0 : Nat) < 0 + sz + (alignUp (1 + 0) al2 - (1 + 0))
      omega
    have hnone : Arena.aligned_alloc ⟨0, 0, 1⟩ sz al2 = RResult.ok none := by
      rw [hchar, if_pos hcond]
    unfold Arena.new_box Arena.alloc
    rw [if_neg (show ¬sz = 0 by omega), hnone]
  · intro size alignment e hne
    unfold Arena.new allocAlignedAlloc at hne
    by_cases hsz0 : size = 0
    · rw [if_pos hsz0] at hne
      injection hne with h1
      injection h1
    · rw [if_neg hsz0] at hne
      by_cases hco : count_ones alignment = 1
      · rw [if_pos hco, if_neg hsz0] at hne
        cases hp : prov alignment size with
        | error errno =>
          rw [hp] at hne
          injection hne with h1
          injection h1 with h2
          rw [← h2]
          intro hq
          cases hq
        | ok mem =>
          rw [hp] at hne
          injection hne with h1
          injection h1
      · rw [if_neg hco] at hne
        cases hne

/-- C6 witness: the size-0 arena is built identically under two different
providers, rejects an 8-byte placement by returning `5` unchanged, and
has the non-null base 1. -/
theorem C6_witness :
    Arena.new provFail 0 1024 = RResult.ok (Except.ok ⟨0, 0, 1⟩) ∧
      Arena.new provFail 0 1024 = Arena.new (provAt 7) 0 1024 ∧
      Arena.new_box ⟨0, 0, 1⟩ hEmpty 8 8 (5 : Nat) =
        RResult.ok (⟨0, 0, 1⟩, hEmpty, Except.error 5) ∧
      (1 : Nat) ≠ 0 := by
  obtain ⟨h1, h2, h3, _, h5⟩ :=
    C6_zero_size_arena provFail (provAt 7) 1024 hEmpty (5 : Nat) 8 8 3
      (by decide) (by decide) (by decide) (by decide)
  exact ⟨h1, h2, h3, h5⟩

/-- C7: teardown of a zero-capacity arena still calls the provider's
release: `Drop for Arena` unconditionally frees `self.mem`, which for a
size-0 arena is the placeholder 1 that was never acquired from the
provider — contradicting the claim that nothing is released.  (For any
arena the release list has length exactly one.) -/
theorem C7_drop_frees_placeholder (prov : Provider) (al : Nat) :
    Arena.new prov 0 al = RResult.ok (Except.ok ⟨0, 0, 1⟩) ∧
      Arena.dropFrees ⟨0, 0, 1⟩ = [1] ∧
      Arena.dropFrees ⟨0, 0, 1⟩ ≠ [] ∧
      (∀ b : Arena, (Arena.dropFrees b).length = 1) :=
  ⟨rfl, rfl, by decide, fun _ => rfl⟩

/-- C8 counterexample: the size-0 arena has base 1, which is not aligned
to the requested alignment 1024. -/
theorem C8_counterexample :
    Arena.new provFail 0 1024 = RResult.ok (Except.ok ⟨0, 0, 1⟩) ∧
      (⟨0, 0, 1⟩ : Arena).mem % 1024 ≠ 0 :=
  ⟨rfl, by decide⟩

/-- C8 (amended): for every arena constructed with nonzero size by a
provider that honors its alignment contract, the base is aligned to the
construction-time alignment. -/
theorem C8_base_aligned_for_nonzero_size (prov : Provider) (size al : Nat)
    (a : Arena)
    (hprov : ∀ alignment sz p, prov alignment sz = Except.ok p →
      p % alignment = 0)
    (hsz : size ≠ 0)
    (hnew : Arena.new prov size al = RResult.ok (Except.ok a)) :
    a.mem % al = 0 := by
  unfold Arena.new allocAlignedAlloc at hnew
  rw [if_neg hsz] at hnew
  by_cases hco : count_ones al = 1
  · rw [if_pos hco, if_neg hsz] at hnew
    cases hp : prov al size with
    | error e =>
      rw [hp] at hnew
      injection hnew with h1
      injection h1
    | ok mem =>
      rw [hp] at hnew
      injection hnew with h1
      injection h1 with h2
      rw [← h2]
      exact hprov al size mem hp
  · rw [if_neg hco] at hnew
    cases hnew

/-- C8 witness: a provider returning twice the requested alignment yields
base 2048 for alignment 1024, and `2048 % 1024 = 0`. -/
theorem C8_witness : (⟨1024, 0, 2048⟩ : Arena).mem % 1024 = 0 :=
  C8_base_aligned_for_nonzero_size provAligned 1024 1024 ⟨1024, 0, 2048⟩
    (by
      intro alignment sz p hp
      injection hp with h1
      rw [← h1]
      exact Nat.mul_mod_right alignment 2)
    (by decide) rfl

/-- C10: `into_raw` returns the handle's target pointer and disables the
destructor obligation (`mem::forget`: zero destructor runs), while a
handle dropped owning runs the pointee's destructor exactly once;
`from_raw ∘ into_raw` reconstructs a handle with the same target. -/
theorem C10_into_raw_round_trip {V : Type} (b : ArenaBox V) :
    ArenaBox.into_raw b = b.value ∧
      ArenaBox.from_raw (ArenaBox.into_raw b) = b ∧
      pointeeDestructorRuns HandleFate.consumedIntoRaw = 0 ∧
      pointeeDestructorRuns HandleFate.droppedOwning = 1 := by
  refine ⟨rfl, ?_, rfl, rfl⟩
  cases b
  rfl

end MemoryArena
